import Mathlib

/-!
Shallow embedding of `src/crypto_fetcher.py` (fetch / export / main pipeline)
and theorems about the spec's claims on it.

Modelling conventions:
* A `MarketRecord` (one asset, a JSON object) is an association list of
  field name to `Value`; lookup takes the first match, as a Python dict has
  unique keys.
* A pandas DataFrame built from a list of such records has a column `c`
  exactly when some record carries key `c` (`hasColumn`); a record lacking a
  column that the frame has yields NaN in that cell, modelled as `none`.
* The HTTP world is a function `Nat → Outcome` giving the outcome of each
  attempt (a response with a status code and parsed body, or a raised
  transport/parse exception); `time.sleep` is recorded in a trace.
* Exceptions from the filesystem/serialization calls inside `save_to_excel`
  are modelled by an `ExportEnv` of booleans saying whether each effectful
  call succeeds, and the `try`/`except` structure by `Except` plus a
  catching wrapper.
-/

namespace CryptoFetcher

/-- A JSON scalar as it appears in a CoinGecko market record. -/
inductive Value
  | str (s : String)
  | num (q : Rat)
  | bool (b : Bool)
  | null
deriving Repr, DecidableEq

/-- One asset's raw attribute set: a JSON object as an association list. -/
abbrev MarketRecord : Type := List (String × Value)

/-- An ordered sequence of records captured in one fetch. -/
abbrev Snapshot : Type := List MarketRecord

/-- The outcome of one `requests.get` attempt: a response that arrived and
whose body parses (carrying the status code and the parsed body), or an
exception raised by the transport or by `response.json()`. -/
inductive Outcome
  | resp (statusCode : Nat) (body : Snapshot)
  | exn
deriving Repr, DecidableEq

/-- Did the attempt yield a 200 response (the only case the loop returns on)? -/
def is200 : Outcome → Bool
  | .resp code _ => code == 200
  | .exn => false

/-- The `time.sleep` duration the loop performs after a failed attempt:
60 seconds on HTTP 429, 5 seconds on any other non-200 status or on an
exception (lines 30-39 of `crypto_fetcher.py`). -/
def sleepDur : Outcome → Nat
  | .resp code _ => if code == 429 then 60 else 5
  | .exn => 5

/-- What one run of `fetch_crypto_data` did: its return value, how many
HTTP requests it issued, and the sleep durations it performed, in order. -/
structure FetchResult where
  result : Option Snapshot
  requests : Nat
  sleeps : List Nat
deriving Repr, DecidableEq

/-- The `for attempt in range(max_retries)` loop of `fetch_crypto_data`:
`i` is the index of the current attempt, `fuel` the number of attempts left.
On a 200 response the parsed body is returned at once; on 429 the loop
sleeps 60 s, on any other status or an exception 5 s, and retries. -/
def fetchGo (outcomes : Nat → Outcome) (i : Nat) : Nat → FetchResult
  | 0 => { result := none, requests := 0, sleeps := [] }
  | fuel + 1 =>
    match outcomes i with
    | .resp code body =>
      if code == 200 then
        { result := some body, requests := 1, sleeps := [] }
      else
        let rest := fetchGo outcomes (i + 1) fuel
        { result := rest.result
          requests := rest.requests + 1
          sleeps := (if code == 429 then 60 else 5) :: rest.sleeps }
    | .exn =>
      let rest := fetchGo outcomes (i + 1) fuel
      { result := rest.result
        requests := rest.requests + 1
        sleeps := 5 :: rest.sleeps }

/-- The function `fetch_crypto_data(max_retries=3)` (lines 7-42). `max_retries` is a
Python `int`; `range(max_retries)` is empty for non-positive values, which
`Int.toNat` captures. -/
def fetch_crypto_data (outcomes : Nat → Outcome) (max_retries : Int) : FetchResult :=
  fetchGo outcomes 0 max_retries.toNat

/-- The fixed allow-list `columns_to_keep` (lines 61-64). -/
def columnsToKeep : List String :=
  ["id", "symbol", "name", "current_price", "market_cap",
   "total_volume", "price_change_percentage_24h"]

/-- The test `col in df.columns` for a frame built from `data`: some record carries
the key. -/
def hasColumn (data : Snapshot) (c : String) : Bool :=
  data.any (fun r => (r.map Prod.fst).contains c)

/-- The column-pruning loop of `save_to_excel` (lines 67-70):

    for col in columns_to_keep:
        if col not in df.columns:
            print warning
            columns_to_keep.remove(col)

Python's list iterator walks by index over the mutating list, and
`remove(col)` deletes the current element (`columns_to_keep` has distinct
entries, so remove-first-occurrence is remove-at-the-iterator-index).
Deleting the element at the iterator's index shifts the rest left, so the
iterator's next step lands past the element that followed the deleted one:
that element is kept without ever being checked. The first component is the
surviving list, the second the columns warned about, in print order. -/
def pruneGo (present : String → Bool) : List String → List String × List String
  | [] => ([], [])
  | c :: rest =>
    if present c then
      let r := pruneGo present rest
      (c :: r.1, r.2)
    else
      match rest with
      | [] => ([], [c])
      | d :: rest2 =>
        let r := pruneGo present rest2
        (d :: r.1, c :: r.2)

/-- The `df[cols]` row projection: the cell for a column the record lacks is
NaN (`none`). -/
def projectRow (cols : List String) (r : MarketRecord) : List (Option Value) :=
  cols.map (fun c => r.lookup c)

/-- The tabular content written by `df.to_excel`: header row and data rows. -/
structure Table where
  header : List String
  rows : List (List (Option Value))
deriving Repr, DecidableEq

/-- Whether each effectful call inside `save_to_excel` succeeds:
`os.makedirs`, `df.to_excel`, and the `os.path.exists` check after the
write. -/
structure ExportEnv where
  mkdirOk : Bool
  writeOk : Bool
  existsAfterWrite : Bool
deriving Repr, DecidableEq

/-- The body of `save_to_excel` (lines 48-87), i.e. the code inside the
`try:`. `.error` is a raised exception; `.ok none` is the normal-return
`None` of the failed post-write existence check; `.ok (some (path, table))`
is the successful return of the file path, together with the table content
written. `df[columns_to_keep]` raises `KeyError` when a kept column is not
a column of the frame. `date` is `datetime.now().strftime("%Y-%m-%d")` and
`ts` is `datetime.now().strftime("%Y-%m-%d %H:%M:%S")` at export time. -/
def save_to_excel_body (data : Snapshot) (env : ExportEnv) (date ts : String)
    (directory : String) : Except String (Option (String × Table)) :=
  if !env.mkdirOk then .error "makedirs raised"
  else
    let filePath := directory ++ "/crypto_data_" ++ date ++ ".xlsx"
    let cols := (pruneGo (hasColumn data) columnsToKeep).1
    if cols.any (fun c => !hasColumn data c) then
      .error "KeyError from df[columns_to_keep]"
    else
      let header := cols ++ ["timestamp"]
      let rows := data.map (fun r => projectRow cols r ++ [some (Value.str ts)])
      if !env.writeOk then .error "to_excel raised"
      else if env.existsAfterWrite then .ok (some (filePath, ⟨header, rows⟩))
      else .ok none

/-- The function `save_to_excel` with its `try`/`except` wrapper: any exception from the
body is caught and turned into the return value `None` (lines 88-90). -/
def save_to_excel (data : Snapshot) (env : ExportEnv) (date ts : String)
    (directory : String) : Option (String × Table) :=
  match save_to_excel_body data env date ts directory with
  | .ok r => r
  | .error _ => none

/-- The warnings printed by the pruning loop of `save_to_excel`, one per
missing column the loop actually checked. -/
def exportWarnings (data : Snapshot) : List String :=
  (pruneGo (hasColumn data) columnsToKeep).2

/-- What one run of `main` did: whether `save_to_excel` was invoked and
what it returned. -/
structure MainTrace where
  exportInvoked : Bool
  exportResult : Option (String × Table)
deriving Repr, DecidableEq

/-- The function `main` (lines 92-111): fetch with the default `max_retries=3`; if the
result is `None` or empty, report failure and return without exporting;
otherwise call `save_to_excel` with the snapshot and the default directory
`"data"`, and return normally whether or not the export succeeded. -/
def main (outcomes : Nat → Outcome) (env : ExportEnv) (date ts : String) : MainTrace :=
  match (fetch_crypto_data outcomes 3).result with
  | none => { exportInvoked := false, exportResult := none }
  | some data =>
    if data.length == 0 then { exportInvoked := false, exportResult := none }
    else { exportInvoked := true, exportResult := save_to_excel data env date ts "data" }

/-- The sleep trace of a run of the retry loop in which every attempt from
`start` on fails, one entry per attempt. -/
def expectedSleeps (outcomes : Nat → Outcome) (start : Nat) : Nat → List Nat
  | 0 => []
  | fuel + 1 => sleepDur (outcomes start) :: expectedSleeps outcomes (start + 1) fuel

theorem expectedSleeps_length (outcomes : Nat → Outcome) :
    ∀ fuel start, (expectedSleeps outcomes start fuel).length = fuel := by
  intro fuel
  induction fuel with
  | zero => intro start; rfl
  | succ f ih => intro start; simp [expectedSleeps, ih]

theorem expectedSleeps_getElem? (outcomes : Nat → Outcome) :
    ∀ fuel start i, i < fuel →
      (expectedSleeps outcomes start fuel)[i]? = some (sleepDur (outcomes (start + i))) := by
  intro fuel
  induction fuel with
  | zero => intro start i hi; omega
  | succ f ih =>
    intro start i hi
    cases i with
    | zero => simp [expectedSleeps]
    | succ j =>
      have := ih (start + 1) j (by omega)
      simpa [expectedSleeps, Nat.add_comm, Nat.add_assoc, Nat.add_left_comm] using this

/-- If every attempt fails, the loop uses all its fuel: no result, one
request and one sleep per attempt. -/
theorem fetchGo_all_fail (outcomes : Nat → Outcome) :
    ∀ fuel start, (∀ j, j < fuel → is200 (outcomes (start + j)) = false) →
      fetchGo outcomes start fuel =
        { result := none, requests := fuel,
          sleeps := expectedSleeps outcomes start fuel } := by
  intro fuel
  induction fuel with
  | zero => intro start _; rfl
  | succ f ih =>
    intro start h
    have h0 : is200 (outcomes start) = false := by
      have := h 0 (Nat.succ_pos f)
      simpa using this
    have hrest := ih (start + 1) (fun j hj => by
      have := h (j + 1) (by omega)
      simpa [Nat.add_comm, Nat.add_assoc, Nat.add_left_comm] using this)
    cases hout : outcomes start with
    | resp code body =>
      have hcode : (code == 200) = false := by
        have := h0
        rw [hout] at this
        simpa [is200] using this
      simp [fetchGo, hout, hcode, hrest, expectedSleeps, sleepDur]
    | exn =>
      simp [fetchGo, hout, hrest, expectedSleeps, sleepDur]

/-- Splitting the loop at attempt `start + k` when the first `k` attempts
all fail: the prefix contributes `k` requests and `k` sleeps. -/
theorem fetchGo_skip (outcomes : Nat → Outcome) :
    ∀ k fuel start, k ≤ fuel →
      (∀ j, j < k → is200 (outcomes (start + j)) = false) →
      fetchGo outcomes start fuel =
        { result := (fetchGo outcomes (start + k) (fuel - k)).result,
          requests := k + (fetchGo outcomes (start + k) (fuel - k)).requests,
          sleeps := expectedSleeps outcomes start k
                      ++ (fetchGo outcomes (start + k) (fuel - k)).sleeps } := by
  intro k
  induction k with
  | zero => intro fuel start _ _; simp [expectedSleeps]
  | succ k ih =>
    intro fuel start hk h
    cases fuel with
    | zero => omega
    | succ f =>
      have h0 : is200 (outcomes start) = false := by
        have := h 0 (Nat.succ_pos k)
        simpa using this
      have hrest := ih f (start + 1) (by omega) (fun j hj => by
        have := h (j + 1) (by omega)
        simpa [Nat.add_comm, Nat.add_assoc, Nat.add_left_comm] using this)
      have harith : start + 1 + k = start + (k + 1) := by omega
      cases hout : outcomes start with
      | resp code body =>
        have hcode : (code == 200) = false := by
          have := h0
          rw [hout] at this
          simpa [is200] using this
        simp [fetchGo, hout, hcode, hrest, expectedSleeps, sleepDur, harith]
        omega
      | exn =>
        simp [fetchGo, hout, hrest, expectedSleeps, sleepDur, harith]
        omega

/-- C2: on any attempt whose response has status 200, `fetch_crypto_data`
returns the parsed body immediately: the result is that body (so its length
is the body's length), exactly `i + 1` requests are issued when the 200
arrives on attempt index `i`, and only the `i` earlier failed attempts
slept — no request or sleep follows the 200. -/
theorem fetch_returns_on_200 (outcomes : Nat → Outcome) (n : Int) (i : Nat)
    (body : Snapshot) (hi : (i : Int) < n) (hok : outcomes i = .resp 200 body)
    (hfail : ∀ j, j < i → is200 (outcomes j) = false) :
    (fetch_crypto_data outcomes n).result = some body ∧
    (fetch_crypto_data outcomes n).requests = i + 1 ∧
    (fetch_crypto_data outcomes n).sleeps.length = i := by
  have hiN : i < n.toNat := by omega
  unfold fetch_crypto_data
  rw [fetchGo_skip outcomes i n.toNat 0 (by omega)
    (fun j hj => by simpa using hfail j hj)]
  have hs : n.toNat - i = (n.toNat - i - 1) + 1 := by omega
  rw [show (0 : Nat) + i = i from by omega, hs]
  simp [fetchGo, hok, expectedSleeps_length]

theorem fetch_returns_on_200_witness :
    (fetch_crypto_data (fun j => if j == 0 then Outcome.exn else Outcome.resp 200 []) 3).result
      = some [] ∧
    (fetch_crypto_data (fun j => if j == 0 then Outcome.exn else Outcome.resp 200 []) 3).requests
      = 2 ∧
    (fetch_crypto_data (fun j => if j == 0 then Outcome.exn else Outcome.resp 200 []) 3).sleeps.length
      = 1 :=
  fetch_returns_on_200 (fun j => if j == 0 then Outcome.exn else Outcome.resp 200 []) 3 1 []
    (by norm_num) rfl
    (fun j hj => by
      have hj0 : j = 0 := by omega
      subst hj0
      rfl)

/-- C3: if every one of the `max_retries` attempts fails to produce a 200
(non-200 status or exception), `fetch_crypto_data` returns `None` and
issues exactly `max_retries` HTTP requests, never more. -/
theorem fetch_all_attempts_fail (outcomes : Nat → Outcome) (n : Nat)
    (hfail : ∀ j, j < n → is200 (outcomes j) = false) :
    (fetch_crypto_data outcomes (n : Int)).result = none ∧
    (fetch_crypto_data outcomes (n : Int)).requests = n := by
  unfold fetch_crypto_data
  have hN : ((n : Int)).toNat = n := by omega
  rw [hN, fetchGo_all_fail outcomes n 0 (fun j hj => by simpa using hfail j hj)]
  exact ⟨rfl, rfl⟩

theorem fetch_all_attempts_fail_witness :
    (fetch_crypto_data (fun _ => Outcome.resp 500 []) ((3 : Nat) : Int)).result = none ∧
    (fetch_crypto_data (fun _ => Outcome.resp 500 []) ((3 : Nat) : Int)).requests = 3 :=
  fetch_all_attempts_fail (fun _ => Outcome.resp 500 []) 3 (fun _ _ => rfl)

/-- C4: on any non-final attempt `i` (so `i + 1 < max_retries`) that is
reached (all earlier attempts failed) and itself fails, the loop sleeps
before the next attempt for exactly `sleepDur (outcomes i)` seconds:
60 on a 429 response, 5 on any other non-200 status or exception. -/
theorem fetch_wait_between_attempts (outcomes : Nat → Outcome) (n i : Nat)
    (hi : i + 1 < n)
    (hfail : ∀ j, j ≤ i → is200 (outcomes j) = false) :
    (fetch_crypto_data outcomes (n : Int)).sleeps[i]? = some (sleepDur (outcomes i)) := by
  unfold fetch_crypto_data
  have hN : ((n : Int)).toNat = n := by omega
  rw [hN, fetchGo_skip outcomes i n 0 (by omega)
    (fun j hj => by simpa using hfail j (by omega))]
  rw [show (0 : Nat) + i = i from by omega]
  have hs : n - i = (n - i - 1) + 1 := by omega
  rw [hs]
  have hif : is200 (outcomes i) = false := hfail i (le_refl i)
  cases hout : outcomes i with
  | resp code body =>
    have hcode : (code == 200) = false := by
      rw [hout] at hif
      simpa [is200] using hif
    rw [List.getElem?_append_right (by simp [expectedSleeps_length, fetchGo, hout, hcode])]
    simp [fetchGo, hout, hcode, sleepDur, expectedSleeps_length]
  | exn =>
    rw [List.getElem?_append_right (by simp [expectedSleeps_length, fetchGo, hout])]
    simp [fetchGo, hout, sleepDur, expectedSleeps_length]

theorem fetch_wait_between_attempts_witness :
    (fetch_crypto_data (fun j => if j == 0 then Outcome.resp 429 [] else Outcome.resp 500 [])
      ((3 : Nat) : Int)).sleeps[1]?
      = some (sleepDur ((fun j => if j == 0 then Outcome.resp 429 [] else Outcome.resp 500 []) 1)) :=
  fetch_wait_between_attempts (fun j => if j == 0 then Outcome.resp 429 [] else Outcome.resp 500 [])
    3 1 (by norm_num)
    (fun j hj => by
      match j, hj with
      | 0, _ => rfl
      | 1, _ => rfl)

/-- C9: when the final attempt also fails, the category-specific sleep is
still performed before returning `None`: every one of the `n` failed
attempts contributes a sleep (so there are `n` sleeps, not `n - 1`), and
the last sleep is 60 s for a 429 and 5 s otherwise. -/
theorem fetch_sleeps_final_attempt (outcomes : Nat → Outcome) (n : Nat)
    (hn : 0 < n) (hfail : ∀ j, j < n → is200 (outcomes j) = false) :
    (fetch_crypto_data outcomes (n : Int)).sleeps.length = n ∧
    (fetch_crypto_data outcomes (n : Int)).sleeps[n - 1]? = some (sleepDur (outcomes (n - 1))) := by
  unfold fetch_crypto_data
  have hN : ((n : Int)).toNat = n := by omega
  rw [hN, fetchGo_all_fail outcomes n 0 (fun j hj => by simpa using hfail j hj)]
  refine ⟨by simp [expectedSleeps_length], ?_⟩
  have := expectedSleeps_getElem? outcomes n 0 (n - 1) (by omega)
  simpa using this

theorem fetch_sleeps_final_attempt_witness :
    (fetch_crypto_data (fun _ => Outcome.resp 429 []) ((3 : Nat) : Int)).sleeps.length = 3 ∧
    (fetch_crypto_data (fun _ => Outcome.resp 429 []) ((3 : Nat) : Int)).sleeps[3 - 1]?
      = some (sleepDur ((fun _ => Outcome.resp 429 []) (3 - 1))) :=
  fetch_sleeps_final_attempt (fun _ => Outcome.resp 429 []) 3 (by norm_num) (fun _ _ => rfl)

/-- C10: with a non-positive `max_retries`, `range(max_retries)` is empty,
so `fetch_crypto_data` returns `None` without issuing any HTTP request and
without sleeping. -/
theorem fetch_nonpositive_retries (outcomes : Nat → Outcome) (m : Int) (hm : m ≤ 0) :
    fetch_crypto_data outcomes m = { result := none, requests := 0, sleeps := [] } := by
  unfold fetch_crypto_data
  have hz : m.toNat = 0 := by omega
  rw [hz]
  rfl

theorem fetch_nonpositive_retries_witness :
    fetch_crypto_data (fun _ => Outcome.resp 200 [[("id", Value.str "btc")]]) (-2)
      = { result := none, requests := 0, sleeps := [] } :=
  fetch_nonpositive_retries (fun _ => Outcome.resp 200 [[("id", Value.str "btc")]]) (-2)
    (by norm_num)

theorem pruneGo_nil (present : String → Bool) : pruneGo present [] = ([], []) := rfl

theorem pruneGo_cons_present (present : String → Bool) (c : String) (rest : List String)
    (hp : present c = true) :
    pruneGo present (c :: rest) =
      (c :: (pruneGo present rest).1, (pruneGo present rest).2) := by
  rw [pruneGo.eq_def]
  simp [hp]

theorem pruneGo_singleton_absent (present : String → Bool) (c : String)
    (hp : present c = false) : pruneGo present [c] = ([], [c]) := by
  rw [pruneGo.eq_def]
  simp [hp]

theorem pruneGo_cons_cons_absent (present : String → Bool) (c d : String)
    (rest2 : List String) (hp : present c = false) :
    pruneGo present (c :: d :: rest2) =
      (d :: (pruneGo present rest2).1, c :: (pruneGo present rest2).2) := by
  rw [pruneGo.eq_def]
  simp [hp]

/-- Every surviving column of the pruning loop was in the input list. -/
theorem pruneGo_fst_mem (present : String → Bool) :
    ∀ (n : Nat) (cols : List String), cols.length ≤ n →
      ∀ x ∈ (pruneGo present cols).1, x ∈ cols := by
  intro n
  induction n with
  | zero =>
    intro cols hc x hx
    have hnil : cols = [] := List.length_eq_zero.mp (Nat.le_zero.mp hc)
    subst hnil
    simp [pruneGo_nil] at hx
  | succ n ih =>
    intro cols hc x hx
    match cols with
    | [] => simp [pruneGo_nil] at hx
    | c :: rest =>
      have hrest : rest.length ≤ n := by
        simp only [List.length_cons] at hc
        omega
      by_cases hp : present c = true
      · rw [pruneGo_cons_present present c rest hp] at hx
        rcases List.mem_cons.mp hx with hxc | hxr
        · exact hxc ▸ List.mem_cons_self _ _
        · exact List.mem_cons_of_mem _ (ih rest hrest x hxr)
      · have hp' : present c = false := by simpa using hp
        match rest, hrest, hx with
        | [], _, hx =>
          rw [pruneGo_singleton_absent present c hp'] at hx
          simp at hx
        | d :: rest2, hrest, hx =>
          rw [pruneGo_cons_cons_absent present c d rest2 hp'] at hx
          rcases List.mem_cons.mp hx with hxd | hxr
          · subst hxd
            exact List.mem_cons_of_mem _ (List.mem_cons_self _ _)
          · have hlen : rest2.length ≤ n := by
              simp only [List.length_cons] at hrest
              omega
            exact List.mem_cons_of_mem _ (List.mem_cons_of_mem _ (ih rest2 hlen x hxr))

/-- The synthetic column name never survives the pruning of the allow-list. -/
theorem timestamp_not_in_pruned (data : Snapshot) :
    "timestamp" ∉ (pruneGo (hasColumn data) columnsToKeep).1 := by
  intro hmem
  have hin := pruneGo_fst_mem (hasColumn data) columnsToKeep.length columnsToKeep
    (le_refl _) _ hmem
  simp [columnsToKeep] at hin

/-- A snapshot of one record carrying every allow-listed field. -/
def fullSnapshot : Snapshot :=
  [[("id", Value.str "bitcoin"), ("symbol", Value.str "btc"), ("name", Value.str "Bitcoin"),
    ("current_price", Value.num 50000), ("market_cap", Value.num 1000000000),
    ("total_volume", Value.num 35000000), ("price_change_percentage_24h", Value.num 2)]]

/-- A snapshot of one record lacking exactly the two adjacent allow-listed
fields `market_cap` and `total_volume`. -/
def missingTwoSnapshot : Snapshot :=
  [[("id", Value.str "bitcoin"), ("symbol", Value.str "btc"), ("name", Value.str "Bitcoin"),
    ("current_price", Value.num 50000), ("price_change_percentage_24h", Value.num 2)]]

/-- C1 fails on the code at a snapshot missing the two adjacent allow-listed
columns `market_cap` and `total_volume`: the pruning loop warns about and
removes only `market_cap`; removing it shifts the list so the loop never
checks `total_volume`, which stays in `columns_to_keep` although absent;
`df[columns_to_keep]` then raises `KeyError`, the `except` catches it, and
`save_to_excel` returns `None` — no table at all, instead of the claimed
schema-intersection table with one warning per missing column. -/
theorem save_adjacent_missing_columns_bug :
    hasColumn missingTwoSnapshot "market_cap" = false ∧
    hasColumn missingTwoSnapshot "total_volume" = false ∧
    pruneGo (hasColumn missingTwoSnapshot) columnsToKeep =
      (["id", "symbol", "name", "current_price", "total_volume",
        "price_change_percentage_24h"], ["market_cap"]) ∧
    save_to_excel missingTwoSnapshot ⟨true, true, true⟩
      "2025-01-01" "2025-01-01 12:00:00" "data" = none :=
  ⟨rfl, rfl, rfl, rfl⟩

/-- C5: any exception raised inside the `try` of `save_to_excel` — from
`os.makedirs`, the `df[columns_to_keep]` projection, or `df.to_excel` — is
caught by the `except` and turned into the return value `None`; the
function never propagates an exception (the wrapper is total by
construction). -/
theorem save_to_excel_catches_exceptions (data : Snapshot) (env : ExportEnv)
    (date ts directory e : String)
    (h : save_to_excel_body data env date ts directory = .error e) :
    save_to_excel data env date ts directory = none := by
  unfold save_to_excel
  rw [h]

theorem save_to_excel_catches_exceptions_witness :
    save_to_excel_body [] ⟨false, true, true⟩ "2025-01-01" "t" "data"
      = .error "makedirs raised" ∧
    save_to_excel [] ⟨false, true, true⟩ "2025-01-01" "t" "data" = none :=
  ⟨rfl, save_to_excel_catches_exceptions [] ⟨false, true, true⟩
    "2025-01-01" "t" "data" "makedirs raised" rfl⟩

/-- C6: `main` invokes the export step exactly when the fetch result is a
non-empty snapshot; it then passes that snapshot and the default directory
`"data"` to `save_to_excel`, and returns a trace in both the
export-success and export-failure cases (the embedding of `main` is a
total function). On a `None` or empty fetch result no export happens. -/
theorem main_export_guard (outcomes : Nat → Outcome) (env : ExportEnv) (date ts : String) :
    (main outcomes env date ts).exportInvoked =
      (match (fetch_crypto_data outcomes 3).result with
       | some (_ :: _) => true
       | _ => false) ∧
    (main outcomes env date ts).exportResult =
      (match (fetch_crypto_data outcomes 3).result with
       | some (r :: rs) => save_to_excel (r :: rs) env date ts "data"
       | _ => none) := by
  unfold main
  cases h : (fetch_crypto_data outcomes 3).result with
  | none => simp
  | some data =>
    cases data with
    | nil => simp
    | cons r rs => simp

/-- Inverting a successful `save_to_excel`: the table written is exactly the
pruned columns plus the timestamp column over the projected rows. -/
theorem save_to_excel_some_inv (data : Snapshot) (env : ExportEnv)
    (date ts directory p : String) (t : Table)
    (h : save_to_excel data env date ts directory = some (p, t)) :
    t = ⟨(pruneGo (hasColumn data) columnsToKeep).1 ++ ["timestamp"],
         data.map (fun r => projectRow (pruneGo (hasColumn data) columnsToKeep).1 r
           ++ [some (Value.str ts)])⟩ := by
  obtain ⟨mk, wr, ex⟩ := env
  by_cases hkey : (((pruneGo (hasColumn data) columnsToKeep).1).any
      fun c => !hasColumn data c) = true
  · cases mk <;> cases wr <;> cases ex <;>
      simp [save_to_excel, save_to_excel_body, hkey] at h
  · have hkey' : (((pruneGo (hasColumn data) columnsToKeep).1).any
        fun c => !hasColumn data c) = false := by simpa using hkey
    cases mk <;> cases wr <;> cases ex <;>
      simp [save_to_excel, save_to_excel_body, hkey'] at h
    exact h.2.symm

/-- C7: every successfully exported table has the synthetic `timestamp`
column exactly once, placed after the surviving allow-listed columns, and
its cell in every row is the export-time clock string `ts`, identical for
all rows. -/
theorem save_timestamp_column (data : Snapshot) (env : ExportEnv)
    (date ts directory p : String) (t : Table)
    (h : save_to_excel data env date ts directory = some (p, t)) :
    t.header = (pruneGo (hasColumn data) columnsToKeep).1 ++ ["timestamp"] ∧
    t.header.count "timestamp" = 1 ∧
    ∀ row ∈ t.rows, row.getLast? = some (some (Value.str ts)) := by
  have ht := save_to_excel_some_inv data env date ts directory p t h
  subst ht
  refine ⟨rfl, ?_, ?_⟩
  · rw [List.count_append]
    have hz : ((pruneGo (hasColumn data) columnsToKeep).1).count "timestamp" = 0 :=
      List.count_eq_zero.mpr (timestamp_not_in_pruned data)
    simp [hz]
  · intro row hrow
    simp only [List.mem_map] at hrow
    obtain ⟨r, _, hr⟩ := hrow
    subst hr
    simp

/-- The table `save_to_excel` writes for `fullSnapshot` at clock
`2025-01-01 12:00:00`. -/
def fullTable : Table :=
  ⟨["id", "symbol", "name", "current_price", "market_cap", "total_volume",
    "price_change_percentage_24h", "timestamp"],
   [[some (Value.str "bitcoin"), some (Value.str "btc"), some (Value.str "Bitcoin"),
     some (Value.num 50000), some (Value.num 1000000000), some (Value.num 35000000),
     some (Value.num 2), some (Value.str "2025-01-01 12:00:00")]]⟩

theorem save_timestamp_column_witness :
    save_to_excel fullSnapshot ⟨true, true, true⟩ "2025-01-01" "2025-01-01 12:00:00" "data"
      = some ("data/crypto_data_2025-01-01.xlsx", fullTable) ∧
    (fullTable.header = (pruneGo (hasColumn fullSnapshot) columnsToKeep).1 ++ ["timestamp"] ∧
     fullTable.header.count "timestamp" = 1 ∧
     ∀ row ∈ fullTable.rows, row.getLast? = some (some (Value.str "2025-01-01 12:00:00"))) :=
  ⟨rfl, save_timestamp_column fullSnapshot ⟨true, true, true⟩ "2025-01-01"
    "2025-01-01 12:00:00" "data" "data/crypto_data_2025-01-01.xlsx" fullTable rfl⟩

/-- C8: with the filename date fixed, the content `save_to_excel` writes is
a deterministic function of the snapshot: runs at two clock readings `ts1`
and `ts2` produce the same success/failure outcome, path and header, and
identical row content outside the final timestamp cell. -/
theorem save_projection_deterministic (data : Snapshot) (env : ExportEnv)
    (date ts1 ts2 directory : String) :
    Option.map (fun pt => (pt.1, pt.2.header.dropLast, pt.2.rows.map List.dropLast))
        (save_to_excel data env date ts1 directory) =
      Option.map (fun pt => (pt.1, pt.2.header.dropLast, pt.2.rows.map List.dropLast))
        (save_to_excel data env date ts2 directory) := by
  obtain ⟨mk, wr, ex⟩ := env
  by_cases hkey : (((pruneGo (hasColumn data) columnsToKeep).1).any
      fun c => !hasColumn data c) = true
  · cases mk <;> cases wr <;> cases ex <;>
      simp [save_to_excel, save_to_excel_body, hkey]
  · have hkey' : (((pruneGo (hasColumn data) columnsToKeep).1).any
        fun c => !hasColumn data c) = false := by simpa using hkey
    cases mk <;> cases wr <;> cases ex <;>
      simp [save_to_excel, save_to_excel_body, hkey', List.map_map, Function.comp]

end CryptoFetcher
